import Mathlib

set_option maxRecDepth 8000

/-
  Verification development for the stool-image-browser repository.

  Python strings are modelled as lists of characters (`PyStr`); the
  functions below are direct shallow embeddings of the functions in
  src/utils.py, src/image_browser.py, src/pages/report.py and src/app.py.
-/

namespace StoolBrowser

/- A Python string, as a list of Unicode characters. -/
abbrev PyStr := List Char

/- Three-way comparison of naturals, as used to model Python comparisons. -/
def cmpNat (a b : Nat) : Ordering :=
  if a < b then Ordering.lt else if b < a then Ordering.gt else Ordering.eq

/- Python compares characters by Unicode code point. -/
def cmpChar (a b : Char) : Ordering := cmpNat a.toNat b.toNat

/- Python string comparison: lexicographic on code points; a proper
   prefix is smaller than the longer string. -/
def pyCmp : PyStr → PyStr → Ordering
  | [], [] => Ordering.eq
  | [], _ :: _ => Ordering.lt
  | _ :: _, [] => Ordering.gt
  | a :: as_, b :: bs =>
    match cmpChar a b with
    | Ordering.eq => pyCmp as_ bs
    | o => o

/- Python s1 <= s2 on strings. -/
def pyLe (a b : PyStr) : Bool :=
  match pyCmp a b with
  | Ordering.gt => false
  | _ => true

/- Python str.split(sep) with a one-character separator: splits at every
   occurrence of sep, keeping empty pieces; never returns an empty list. -/
def pySplit (sep : Char) : PyStr → List PyStr
  | [] => [[]]
  | c :: cs =>
    if c = sep then [] :: pySplit sep cs
    else
      match pySplit sep cs with
      | t :: ts => (c :: t) :: ts
      | [] => [[c]]

/- Python sep.join(pieces) with a one-character separator. -/
def pyJoin (sep : Char) : List PyStr → PyStr
  | [] => []
  | [x] => x
  | x :: y :: xs => x ++ sep :: pyJoin sep (y :: xs)

/- Index of the last occurrence of a character (Python str.rfind). -/
def lastIdxOf (c : Char) : PyStr → Option Nat
  | [] => none
  | a :: as_ =>
    match lastIdxOf c as_ with
    | some i => some (i + 1)
    | none => if a = c then some 0 else none

/- os.path.splitext (posix): split off the extension at the last dot,
   provided the dot lies after the last '/' and the part of the final
   component before it is not made of dots only. -/
def splitextFn (p : PyStr) : PyStr × PyStr :=
  match lastIdxOf '.' p, lastIdxOf '/' p with
  | some di, some si =>
    if si < di && ((p.drop (si + 1)).take (di - (si + 1))).any (fun c => c != '.') then
      (p.take di, p.drop di)
    else (p, [])
  | some di, none =>
    if (p.take di).any (fun c => c != '.') then (p.take di, p.drop di) else (p, [])
  | none, _ => (p, [])

/- os.path.basename (posix): everything after the last '/'. -/
def basenameFn (p : PyStr) : PyStr := (pySplit '/' p).getLastD []

/- Python str.lower on the ASCII range, as used on extensions. -/
def pyLower (p : PyStr) : PyStr := p.map Char.toLower

/- The image extension whitelist of utils.is_image_file / image_browser.is_image_file. -/
def imageExts : List PyStr :=
  [".jpg".toList, ".jpeg".toList, ".png".toList, ".bmp".toList, ".gif".toList, ".tiff".toList]

/- is_image_file: the extension of the key, lowercased, is in the whitelist. -/
def isImageFile (name : PyStr) : Bool :=
  decide (pyLower (splitextFn name).2 ∈ imageExts)

/- A calendar date as produced by datetime.strptime(dob, "%Y%m%d"). -/
structure Date where
  y : Nat
  mo : Nat
  d : Nat
deriving DecidableEq

/- Gregorian leap-year rule used by the calendar validation of datetime. -/
def isLeap (y : Nat) : Bool := y % 4 == 0 && (y % 100 != 0 || y % 400 == 0)

def daysInMonth (y mo : Nat) : Nat :=
  if mo = 2 then (if isLeap y then 29 else 28)
  else if mo = 4 || mo = 6 || mo = 9 || mo = 11 then 30
  else 31

/- Numeric value of a digit string. -/
def toNum (s : PyStr) : Nat := s.foldl (fun a c => a * 10 + (c.toNat - 48)) 0

/- Widths taken by %m and %d when "%Y%m%d" matches the whole string:
   %Y consumes exactly 4 digits, %m and %d prefer 2 digits and backtrack
   to 1, so the widths are determined by the total length (6, 7 or 8). -/
def ymdWidths (n : Nat) : Option (Nat × Nat) :=
  if n = 8 then some (2, 2) else if n = 7 then some (2, 1)
  else if n = 6 then some (1, 1) else none

/- datetime.strptime(s, "%Y%m%d"): all characters must be digits, the
   overall length must be 6..8, and the resulting (year, month, day)
   must be a valid calendar date with year at least 1 (MINYEAR). -/
def strptimeYmd (s : PyStr) : Option Date :=
  if s.all (fun c => c.isDigit) then
    match ymdWidths s.length with
    | some (mw, _) =>
      let y := toNum (s.take 4)
      let mo := toNum ((s.drop 4).take mw)
      let d := toNum (s.drop (4 + mw))
      if 1 ≤ y && 1 ≤ mo && mo ≤ 12 && 1 ≤ d && d ≤ daysInMonth y mo then
        some ⟨y, mo, d⟩
      else none
    | none => none
  else none

/- One listed object: key and last-modified stamp (opaque here). -/
structure S3Obj where
  key : PyStr
  lastModified : Nat
deriving DecidableEq

/- One catalog row as built in get_s3_metadata (the Preview and Download
   columns are external handles and are not part of the parsed metadata). -/
structure Record where
  siteName : PyStr
  gender : PyStr
  dob : Date
  lastModified : Nat
  language : PyStr
deriving DecidableEq

/- Sentinel used when no language segment is present. -/
def naStr : PyStr := "N/A".toList

/- os.path.splitext(os.path.basename(name))[0], as in get_s3_metadata. -/
def keyStem (key : PyStr) : PyStr := (splitextFn (basenameFn key)).1

/- The per-object parse of get_s3_metadata:
   `_, site_name, dob, gender, _, _, *lang = basename.split('_')` raises
   ValueError with fewer than 6 pieces, `datetime.strptime(dob, "%Y%m%d")`
   raises ValueError on a malformed date token, and `lang[0]` / "N/A"
   selects the language.  An `Except.error` models the raised exception. -/
def parseRecord (o : S3Obj) : Except PyStr Record :=
  match pySplit '_' (keyStem o.key) with
  | _ :: site :: dob :: g :: _ :: _ :: rest =>
    match strptimeYmd dob with
    | some dt => Except.ok ⟨site, g, dt, o.lastModified, rest.headD naStr⟩
    | none => Except.error ("time data does not match format".toList)
  | _ => Except.error ("not enough values to unpack".toList)

/- The loop of get_s3_metadata over response["Contents"]: non-image keys
   are skipped before any parsing; an exception raised while processing an
   image key propagates and aborts the whole build. -/
def buildCatalog : List S3Obj → Except PyStr (List Record)
  | [] => Except.ok []
  | o :: rest =>
    if isImageFile o.key then
      match parseRecord o with
      | Except.ok r =>
        match buildCatalog rest with
        | Except.ok cat => Except.ok (r :: cat)
        | Except.error e => Except.error e
      | Except.error e => Except.error e
    else buildCatalog rest

/- Whether an Except carries a value (the call returned normally). -/
def exOk {α : Type} : Except PyStr α → Bool
  | Except.ok _ => true
  | Except.error _ => false

/- Size of the catalog when the build returned normally, 0 otherwise. -/
def okLength : Except PyStr (List Record) → Nat
  | Except.ok cat => cat.length
  | Except.error _ => 0

/- boto3 list_objects_v2 returns at most MaxKeys (default 1000) objects
   per response; get_s3_metadata issues a single call and never consults
   IsTruncated or NextContinuationToken, so it sees only the first page. -/
def listObjectsV2 (allObjs : List S3Obj) : List S3Obj := allObjs.take 1000

/- get_s3_metadata against a store holding allObjs under the key path. -/
def getS3MetadataModel (allObjs : List S3Obj) : Except PyStr (List Record) :=
  buildCatalog (listObjectsV2 allObjs)

/- get_s3_download_link: os.path.basename(download_link.split('?')[0]).
   The presigned URL path ends in the object key, so the name derived
   here is the basename of the key with any query string stripped. -/
def dlName (url : PyStr) : PyStr := basenameFn ((pySplit '?' url).headD [])

def dlStem (url : PyStr) : PyStr := (splitextFn (dlName url)).1

def dlExt (url : PyStr) : PyStr := (splitextFn (dlName url)).2

/- The suggested download filename of get_s3_download_link: rejoin the
   underscore tokens, dropping the site token exactly when it is empty,
   and keeping every extra token after the time segment; raises (none)
   when the unpack of 6 leading tokens fails. -/
def getDownloadOutfile (url : PyStr) : Option PyStr :=
  match pySplit '_' (dlStem url) with
  | p0 :: site :: dob :: g :: d5 :: t6 :: rest =>
    some (pyJoin '_' ([p0] ++ (if site = [] then [] else [site]) ++ [dob, g, d5, t6] ++ rest) ++ dlExt url)
  | _ => none

/- Decimal digit characters of n, most significant first (fuel-indexed). -/
def natDigitsAux : Nat → Nat → List Char
  | 0, _ => []
  | fuel + 1, n => if n = 0 then [] else natDigitsAux fuel (n / 10) ++ [Nat.digitChar (n % 10)]

def natDigits (n : Nat) : List Char :=
  if n = 0 then ['0'] else natDigitsAux (n + 1) n

/- Python f-string {i:04d}: zero-pad the decimal form to width 4. -/
def pyFormat4 (n : Nat) : PyStr :=
  List.replicate (4 - (natDigits n).length) '0' ++ natDigits n

/- get_image_ext: os.path.splitext(os.path.basename(url).split("?")[0])[1]. -/
def getImageExt (url : PyStr) : PyStr :=
  (splitextFn ((pySplit '?' (basenameFn url)).headD [])).2

/- Name of the summary entry written into the archive. -/
def metaName : PyStr := "meta_table.csv".toList

/- os.path.join("images", "image_" + format(i) + ext), i zero-padded to 4. -/
def imageEntryName (i : Nat) (link : PyStr) : PyStr :=
  "images/image_".toList ++ pyFormat4 i ++ getImageExt link

/- Archive entry names written by utils.zip_files_parallel: each
   submitted future is awaited immediately, so per-file entries appear in
   enumeration order with i starting at 0; meta_table.csv is written last. -/
def zipEntriesParallel (links : List PyStr) : List PyStr :=
  (List.enum links).map (fun p => imageEntryName p.1 p.2) ++ [metaName]

/- Archive entry names written by image_browser.zip_files: enumeration
   starts at 1; meta_table.csv is written after all per-file entries. -/
def zipEntries (links : List PyStr) : List PyStr :=
  (List.enumFrom 1 links).map (fun p => imageEntryName p.1 p.2) ++ [metaName]

/- image_browser.main pagination:
   n_pages = max(0, len // items_per_page), plus 1 when a remainder exists. -/
def nPages (count ipp : Nat) : Nat :=
  let base := max 0 (count / ipp)
  if count % ipp > 0 then base + 1 else base

/- The guard of the "No data to display." branch in image_browser.main:
   n_pages == 1 and len(df_filter) == 0. -/
def noDataShown (count ipp : Nat) : Bool :=
  nPages count ipp == 1 && count == 0

/- df_filter.iloc[start:end] with start = ipp*(page-1), end = start+ipp. -/
def pageSlice {α : Type} (l : List α) (ipp page : Nat) : List α :=
  (l.drop (ipp * (page - 1))).take ipp

/- The right-arrow button: increments only while page < n_pages. -/
def nextPageBtn (count ipp page : Nat) : Nat :=
  if page < nPages count ipp then page + 1 else page

/- The left-arrow button: decrements only while page > 1. -/
def prevPageBtn (page : Nat) : Nat :=
  if page > 1 then page - 1 else page

/- The mutable per-session state kept in st.session_state. -/
structure SessionState where
  page_number : Nat
  button_clicked : Bool
  apply_filter : Bool
deriving DecidableEq

/- utils.reset_session_state. -/
def reset_session_state (_ : SessionState) : SessionState := ⟨1, false, false⟩

/- The storage selectbox of image_browser.main (line 155) has no
   on_change callback, so selecting a different path leaves the session
   state untouched. -/
def browserFolderSelect (s : SessionState) : SessionState := s

/- The storage selectbox of report.statistics_page (line 54) passes
   on_change=reset_session_state. -/
def reportFolderSelect (s : SessionState) : SessionState := reset_session_state s

/- A wall-clock instant already converted to the display time zone
   (the dt.tz_convert(tz) result that strftime formats). -/
structure LocalTime where
  y : Nat
  mo : Nat
  d : Nat
  h : Nat
  mi : Nat
  s : Nat
deriving DecidableEq

/- Fixed-width zero-padded decimal of exactly k digits (the value of
   %Y/%m/%d/%H/%M/%S for in-range datetime fields). -/
def padNum : Nat → Nat → List Char
  | 0, _ => []
  | k + 1, n => padNum k (n / 10) ++ [Nat.digitChar (n % 10)]

/- strftime("%Y-%m-%d %H:%M:%S %Z") in the display zone; tzAbbr is the
   zone abbreviation, identical for every value formatted in one zone. -/
def fmtLocal (t : LocalTime) (tzAbbr : PyStr) : PyStr :=
  padNum 4 t.y ++ '-' :: (padNum 2 t.mo ++ '-' :: (padNum 2 t.d ++ ' ' ::
    (padNum 2 t.h ++ ':' :: (padNum 2 t.mi ++ ':' :: (padNum 2 t.s ++ ' ' :: tzAbbr)))))

/- tz.localize(datetime(y, m, d, 0, 0, 0)): the lower filter bound. -/
def startOfDay (y mo d : Nat) : LocalTime := ⟨y, mo, d, 0, 0, 0⟩

/- tz.localize(datetime(y, m, d, 23, 59, 59)): the upper filter bound. -/
def endOfDay (y mo d : Nat) : LocalTime := ⟨y, mo, d, 23, 59, 59⟩

/- The date-range filter of image_browser.main line 202: both bounds and
   the record stamp are strftime-formatted and compared as Python strings. -/
def dateRangeKeep (t : LocalTime) (sy sm sd ey em ed : Nat) (tz : PyStr) : Bool :=
  pyLe (fmtLocal (startOfDay sy sm sd) tz) (fmtLocal t tz) &&
    pyLe (fmtLocal t tz) (fmtLocal (endOfDay ey em ed) tz)

/- Three-way comparison of wall-clock instants, field by field. -/
def cmpT (a b : LocalTime) : Ordering :=
  (cmpNat a.y b.y).then ((cmpNat a.mo b.mo).then ((cmpNat a.d b.d).then
    ((cmpNat a.h b.h).then ((cmpNat a.mi b.mi).then (cmpNat a.s b.s)))))

/- Chronological order of two instants expressed in the same zone. -/
def chronoLE (a b : LocalTime) : Prop :=
  a.y < b.y ∨ (a.y = b.y ∧ (a.mo < b.mo ∨ (a.mo = b.mo ∧ (a.d < b.d ∨ (a.d = b.d ∧
    (a.h < b.h ∨ (a.h = b.h ∧ (a.mi < b.mi ∨ (a.mi = b.mi ∧ a.s ≤ b.s)))))))))

instance (a b : LocalTime) : Decidable (chronoLE a b) := by
  unfold chronoLE; infer_instance

/- Field bounds guaranteed by datetime (year ≤ 9999, others two digits). -/
def inRange (t : LocalTime) : Prop :=
  t.y < 10 ^ 4 ∧ t.mo < 10 ^ 2 ∧ t.d < 10 ^ 2 ∧ t.h < 10 ^ 2 ∧ t.mi < 10 ^ 2 ∧ t.s < 10 ^ 2

instance (t : LocalTime) : Decidable (inRange t) := by
  unfold inRange; infer_instance

/- Concrete inputs used by witnesses and counterexamples. -/

def c1OkKey : PyStr := "IMG_SiteA_19900115_Male_20240501_101530.jpg".toList

def c1OkKey2 : PyStr := "IMG_SiteC_19851230_Female_20240502_090000.png".toList

def c1BadKey : PyStr := "IMG_SiteB_1990XX15_Male_20240501_101530.jpg".toList

def c1TxtKey : PyStr := "readme.txt".toList

def c1BadInput : List S3Obj := [⟨c1OkKey, 10⟩, ⟨c1BadKey, 11⟩, ⟨c1TxtKey, 12⟩]

def c1GoodInput : List S3Obj := [⟨c1OkKey, 10⟩, ⟨c1TxtKey, 12⟩, ⟨c1OkKey2, 13⟩]

def okObj : S3Obj := ⟨c1OkKey, 0⟩

def clinicKey : PyStr := "IMG_ClinicA_19900115_Female_20240501_101530_EN.jpg".toList

def wUrl : PyStr :=
  "https://bkt.s3.amazonaws.com/StudyA/IMG_ClinicB_19851230_Male_20240401_090000_KO.jpg?X-Amz-Signature=abc".toList

def wLinks : List PyStr := ["x.png".toList, "y.jpg".toList]

/- Theorems. -/

/-- C3: the view pipeline of image_browser.main diverges from the claimed
pagination contract at zero matching records: n_pages evaluates to 0 (not 1)
for an empty filtered set with page size 5, and the guard of the
"No data to display." branch is false there, so no explicit no-data state is
rendered.  (With max(1, ...) in place of max(0, ...) the claim would hold;
report.py renders the no-data state correctly, showing the intent.) -/
theorem pagination_zero_count_divergence :
    nPages 0 5 = 0 ∧ noDataShown 0 5 = false := by decide

/-- Helper for C3: the "No data to display." branch of image_browser.main is
unreachable for every record count and page size, because n_pages == 1 and
count == 0 can never hold together under the max(0, ...) formula. -/
theorem noDataShown_unreachable (count ipp : Nat) : noDataShown count ipp = false := by
  unfold noDataShown nPages
  rcases count with _ | c
  · simp
  · simp

/-- C9: changing the selected storage path on the image-browser page leaves
page_number untouched (its selectbox has no on_change callback), while the
statistics page selectbox does reset the session state to page 1 via
reset_session_state; so the claimed reset-on-change invariant fails on the
browser page. -/
theorem folder_change_keeps_page :
    (browserFolderSelect ⟨3, false, false⟩).page_number = 3 ∧
      (reportFolderSelect ⟨3, false, false⟩).page_number = 1 := by decide

/-- C6 counterexample: with 12 matching records and page size 5, requesting
page 4 yields the empty slice, not page 3 (whose slice holds the last 2
records): no clamping happens anywhere in image_browser.main. -/
theorem page_four_not_clamped :
    pageSlice (List.range 12) 5 4 = [] ∧ pageSlice (List.range 12) 5 3 = [10, 11] := by
  decide

/-- C6 amended: page indexing is 1-based and the navigation buttons cannot
move the page outside [1, n_pages], but an out-of-range stale page number is
not clamped: it produces an empty slice.  With 12 records and page size 5,
pages 1 and 2 hold 5 records, page 3 holds 2, and page 4 is empty. -/
theorem pagination_clamp_amended (count ipp page : Nat) (h1 : 1 ≤ page)
    (h2 : page ≤ nPages count ipp) :
    (1 ≤ nextPageBtn count ipp page ∧ nextPageBtn count ipp page ≤ nPages count ipp ∧
      1 ≤ prevPageBtn page ∧ prevPageBtn page ≤ nPages count ipp) ∧
      nPages 12 5 = 3 ∧
      (pageSlice (List.range 12) 5 1).length = 5 ∧
      (pageSlice (List.range 12) 5 2).length = 5 ∧
      (pageSlice (List.range 12) 5 3).length = 2 ∧
      pageSlice (List.range 12) 5 4 = ([] : List Nat) := by
  refine ⟨?_, by decide, by decide, by decide, by decide, by decide⟩
  unfold nextPageBtn prevPageBtn
  refine ⟨?_, ?_, ?_, ?_⟩ <;> (split <;> omega)

/-- C6 witness: the amended pagination facts instantiated at 12 records,
page size 5, current page 3. -/
theorem pagination_clamp_amended_witness :
    (1 ≤ nextPageBtn 12 5 3 ∧ nextPageBtn 12 5 3 ≤ nPages 12 5 ∧
      1 ≤ prevPageBtn 3 ∧ prevPageBtn 3 ≤ nPages 12 5) ∧
      nPages 12 5 = 3 ∧
      (pageSlice (List.range 12) 5 1).length = 5 ∧
      (pageSlice (List.range 12) 5 2).length = 5 ∧
      (pageSlice (List.range 12) 5 3).length = 2 ∧
      pageSlice (List.range 12) 5 4 = ([] : List Nat) :=
  pagination_clamp_amended 12 5 3 (by decide) (by decide)

/-- C1 counterexample: a listing of three objects — one well-formed image,
one image whose date token is malformed, one non-image — makes the catalog
build abort (get_s3_metadata raises), so the build neither skips the
offending object nor returns a catalog of size 3 - 1 - 1 = 1. -/
theorem buildCatalog_aborts_on_malformed :
    exOk (buildCatalog c1BadInput) = false ∧
      okLength (buildCatalog c1BadInput) = 0 ∧
      c1BadInput.length = 3 ∧
      (c1BadInput.filter (fun o => !(isImageFile o.key))).length = 1 := by decide

/-- C2 counterexample: utils.zip_files_parallel enumerates from 0, so a
single-link export produces the entry images/image_0000.jpg and no entry
named images/image_0001.jpg as the claim demands. -/
theorem zip_parallel_zero_indexed :
    zipEntriesParallel ["a.jpg".toList] = ["images/image_0000.jpg".toList, metaName] ∧
      ¬ ("images/image_0001.jpg".toList ∈ zipEntriesParallel ["a.jpg".toList]) := by decide

/-- Helper: positions of List.enumFrom. -/
theorem enumFrom_get?_eq (l : List PyStr) :
    ∀ (n j : Nat), (List.enumFrom n l).get? j = (l.get? j).map (fun a => (n + j, a)) := by
  induction l with
  | nil => intro n j; simp [List.enumFrom]
  | cons a as_ ih =>
    intro n j
    cases j with
    | zero => simp [List.enumFrom]
    | succ j =>
      simp only [List.enumFrom, List.get?]
      rw [ih (n + 1) j]
      have h : n + 1 + j = n + (j + 1) := by omega
      rw [h]

/-- C2 amended: image_browser.zip_files (whose enumeration starts at 1)
produces, for N download references, exactly N image entries named
images/image_0001.<ext> ... images/image_NNNN.<ext> — extension taken from
the source link minus any query string — followed by a single final
meta_table.csv entry; utils.zip_files_parallel produces the same shape but
enumerates from 0, so its entries are images/image_0000 ... image_{N-1}. -/
theorem zip_entry_naming (links : List PyStr) :
    (zipEntries links).length = links.length + 1 ∧
      (zipEntries links).getLast? = some metaName ∧
      (∀ j, (hj : j < links.length) →
        (zipEntries links).get? j = some (imageEntryName (j + 1) (links.get ⟨j, hj⟩))) ∧
      (∀ j, (hj : j < links.length) →
        (zipEntriesParallel links).get? j = some (imageEntryName j (links.get ⟨j, hj⟩))) ∧
      (zipEntriesParallel links).length = links.length + 1 ∧
      (zipEntriesParallel links).getLast? = some metaName := by
  refine ⟨?_, ?_, ?_, ?_, ?_, ?_⟩
  · simp [zipEntries, List.enumFrom_length]
  · simp [zipEntries, List.getLast?_concat]
  · intro j hj
    unfold zipEntries
    rw [List.get?_append (by simp [List.enumFrom_length]; omega), List.get?_map,
      enumFrom_get?_eq, List.get?_eq_get hj]
    simp [Nat.add_comm 1 j]
  · intro j hj
    unfold zipEntriesParallel List.enum
    rw [List.get?_append (by simp [List.enumFrom_length]; omega), List.get?_map,
      enumFrom_get?_eq, List.get?_eq_get hj]
    simp
  · simp [zipEntriesParallel, List.enum, List.enumFrom_length]
  · simp [zipEntriesParallel, List.getLast?_concat]

/-- C2 witness: the amended naming facts at a concrete two-link input. -/
theorem zip_entry_naming_witness :
    (zipEntries wLinks).length = 3 ∧
      (zipEntries wLinks).getLast? = some metaName ∧
      (zipEntries wLinks).get? 1 = some (imageEntryName 2 (wLinks.get ⟨1, by decide⟩)) ∧
      (zipEntriesParallel wLinks).get? 1 = some (imageEntryName 1 (wLinks.get ⟨1, by decide⟩)) ∧
      (zipEntriesParallel wLinks).length = 3 ∧
      (zipEntriesParallel wLinks).getLast? = some metaName := by
  have h := zip_entry_naming wLinks
  exact ⟨h.1, h.2.1, h.2.2.1 1 (by decide), h.2.2.2.1 1 (by decide), h.2.2.2.2.1, h.2.2.2.2.2⟩

/-- C1 amended: the catalog build is all-or-nothing.  It returns normally
exactly when every image-extension object in the listing parses; a single
malformed image object makes the whole build abort with the raised parse
error.  When the build does return, the catalog holds one record per
image-extension object, so its size is the input count minus the non-image
count (a malformed count can only be zero on a successful build). -/
theorem catalog_build_all_or_nothing (objs : List S3Obj) :
    (exOk (buildCatalog objs) = true ↔
      ∀ o ∈ objs, isImageFile o.key = true → exOk (parseRecord o) = true) ∧
      (exOk (buildCatalog objs) = true →
        okLength (buildCatalog objs) +
          (objs.filter (fun o => !(isImageFile o.key))).length = objs.length) := by
  induction objs with
  | nil => simp [buildCatalog, exOk, okLength]
  | cons o rest ih =>
    obtain ⟨ih1, ih2⟩ := ih
    cases himg : isImageFile o.key with
    | false =>
      have hb2 : buildCatalog (o :: rest) = buildCatalog rest := by
        simp [buildCatalog, himg]
      have hf : (o :: rest).filter (fun o2 => !(isImageFile o2.key)) =
          o :: rest.filter (fun o2 => !(isImageFile o2.key)) := by
        simp [List.filter_cons, himg]
      constructor
      · rw [hb2, ih1]
        constructor
        · intro hra o2 ho2
          rcases List.mem_cons.mp ho2 with rfl | ho2
          · intro himg2; rw [himg] at himg2; cases himg2
          · exact hra o2 ho2
        · intro hall o2 ho2 h3
          exact hall o2 (List.mem_cons_of_mem _ ho2) h3
      · intro h
        rw [hb2] at h ⊢
        have h2 := ih2 h
        rw [hf]
        simp only [List.length_cons]
        omega
    | true =>
      cases hpr : parseRecord o with
      | error e =>
        have hb2 : buildCatalog (o :: rest) = Except.error e := by
          simp [buildCatalog, himg, hpr]
        constructor
        · refine iff_of_false (by rw [hb2]; simp [exOk]) ?_
          intro hall
          have h3 := hall o (List.mem_cons_self o rest) himg
          rw [hpr] at h3
          simp [exOk] at h3
        · intro h
          rw [hb2] at h
          simp [exOk] at h
      | ok r =>
        cases hb : buildCatalog rest with
        | error e2 =>
          have hb2 : buildCatalog (o :: rest) = Except.error e2 := by
            simp [buildCatalog, himg, hpr, hb]
          constructor
          · refine iff_of_false (by rw [hb2]; simp [exOk]) ?_
            intro hall
            have hra : ∀ o2 ∈ rest, isImageFile o2.key = true → exOk (parseRecord o2) = true :=
              fun o2 ho2 => hall o2 (List.mem_cons_of_mem _ ho2)
            have h3 : exOk (buildCatalog rest) = true := ih1.mpr hra
            rw [hb] at h3
            simp [exOk] at h3
          · intro h
            rw [hb2] at h
            simp [exOk] at h
        | ok cat =>
          have hb2 : buildCatalog (o :: rest) = Except.ok (r :: cat) := by
            simp [buildCatalog, himg, hpr, hb]
          have hf : (o :: rest).filter (fun o2 => !(isImageFile o2.key)) =
              rest.filter (fun o2 => !(isImageFile o2.key)) := by
            simp [List.filter_cons, himg]
          constructor
          · refine iff_of_true (by rw [hb2]; rfl) ?_
            intro o2 ho2
            rcases List.mem_cons.mp ho2 with rfl | ho2
            · intro _; rw [hpr]; rfl
            · exact ih1.mp (by rw [hb]; rfl) o2 ho2
          · intro _
            have hrest : exOk (buildCatalog rest) = true := by rw [hb]; rfl
            have h2 := ih2 hrest
            rw [hb] at h2
            rw [hb2, hf]
            simp only [okLength, List.length_cons] at h2 ⊢
            omega

/-- C1 witness: a listing of two well-formed images and one non-image
builds successfully, and the catalog size is the input count minus the
non-image count. -/
theorem catalog_build_all_or_nothing_witness :
    exOk (buildCatalog c1GoodInput) = true ∧
      okLength (buildCatalog c1GoodInput) +
        (c1GoodInput.filter (fun o => !(isImageFile o.key))).length = c1GoodInput.length := by
  have h := catalog_build_all_or_nothing c1GoodInput
  have h1 : exOk (buildCatalog c1GoodInput) = true := h.1.mpr (by decide)
  exact ⟨h1, h.2 h1⟩

/-- Helper for C4: a listing of n copies of a well-formed image object
builds to a catalog of exactly n records. -/
theorem buildCatalog_replicate_okObj (n : Nat) :
    ∃ cat, buildCatalog (List.replicate n okObj) = Except.ok cat ∧ cat.length = n := by
  induction n with
  | zero => exact ⟨[], rfl, rfl⟩
  | succ n ih =>
    obtain ⟨cat, hc, hl⟩ := ih
    have himg : isImageFile okObj.key = true := by decide
    cases hpr : parseRecord okObj with
    | error e =>
      have hok : exOk (parseRecord okObj) = true := by decide
      rw [hpr] at hok
      simp [exOk] at hok
    | ok r =>
      refine ⟨r :: cat, ?_, by simp [hl]⟩
      rw [List.replicate_succ]
      simp [buildCatalog, himg, hpr, hc]

/-- C4: the catalog builder issues a single list_objects_v2 call and never
follows continuation tokens, so with 1001 well-formed image objects under
the path — one more than the listing API page limit of 1000 — the catalog
holds only 1000 records instead of one per object. -/
theorem catalog_truncated_at_page_limit :
    okLength (getS3MetadataModel (List.replicate 1001 okObj)) = 1000 ∧
      (List.replicate 1001 okObj).length = 1001 ∧
      isImageFile okObj.key = true ∧
      exOk (parseRecord okObj) = true := by
  refine ⟨?_, by simp, by decide, by decide⟩
  unfold getS3MetadataModel listObjectsV2
  have hmin : (1000 : Nat) ⊓ 1001 = 1000 := by norm_num
  rw [List.take_replicate, hmin]
  obtain ⟨cat, hc, hl⟩ := buildCatalog_replicate_okObj 1000
  rw [hc]
  simpa [okLength] using hl

/-- C7: for every object key whose basename (directory path and extension
stripped) splits on underscores into at least 6 tokens and whose third
token parses as a date, get_s3_metadata recovers site_name, gender and the
date of birth exactly as the corresponding tokens (case-preserved), and the
language is the 7th token when present, the sentinel "N/A" otherwise. -/
theorem filename_parser_recovers_tokens (key : PyStr) (lm : Nat)
    (p0 site dob g s5 s6 : PyStr) (rest : List PyStr) (dt : Date)
    (hsplit : pySplit '_' (keyStem key) = p0 :: site :: dob :: g :: s5 :: s6 :: rest)
    (hdob : strptimeYmd dob = some dt) :
    parseRecord ⟨key, lm⟩ = Except.ok ⟨site, g, dt, lm, rest.headD naStr⟩ := by
  unfold parseRecord
  simp only [hsplit, hdob]

/-- C7 witness: the key IMG_ClinicA_19900115_Female_20240501_101530_EN.jpg
parses to site ClinicA, date of birth 1990-01-15, gender Female and
language EN. -/
theorem filename_parser_recovers_tokens_witness :
    parseRecord ⟨clinicKey, 7⟩ =
      Except.ok ⟨"ClinicA".toList, "Female".toList, ⟨1990, 1, 15⟩, 7, "EN".toList⟩ :=
  filename_parser_recovers_tokens clinicKey 7 ("IMG".toList) ("ClinicA".toList)
    ("19900115".toList) ("Female".toList) ("20240501".toList) ("101530".toList)
    (["EN".toList]) ⟨1990, 1, 15⟩ (by decide) (by decide)

/-- Helper: pySplit never returns the empty list of pieces. -/
theorem pySplit_ne_nil (sep : Char) (s : PyStr) : pySplit sep s ≠ [] := by
  cases s with
  | nil => simp [pySplit]
  | cons c cs =>
    unfold pySplit
    split
    · simp
    · cases h : pySplit sep cs with
      | nil => simp
      | cons t ts => simp

/-- Helper: joining a list whose head gained a character prepends it. -/
theorem pyJoin_cons_head (sep c : Char) (t : PyStr) (ts : List PyStr) :
    pyJoin sep ((c :: t) :: ts) = c :: pyJoin sep (t :: ts) := by
  cases ts <;> rfl

/-- Helper: sep.join(s.split(sep)) == s, as in Python. -/
theorem pyJoin_pySplit (sep : Char) (s : PyStr) : pyJoin sep (pySplit sep s) = s := by
  induction s with
  | nil => rfl
  | cons c cs ih =>
    unfold pySplit
    split
    · rename_i hc
      cases h : pySplit sep cs with
      | nil => exact absurd h (pySplit_ne_nil sep cs)
      | cons t ts =>
        rw [h] at ih
        show pyJoin sep ([] :: t :: ts) = c :: cs
        show sep :: pyJoin sep (t :: ts) = c :: cs
        rw [ih, hc]
    · cases h : pySplit sep cs with
      | nil => exact absurd h (pySplit_ne_nil sep cs)
      | cons t ts =>
        rw [h] at ih
        show pyJoin sep ((c :: t) :: ts) = c :: cs
        rw [pyJoin_cons_head, ih]

/-- C10: when the basename of the (query-stripped) download URL splits on
underscores into at least 6 tokens, the suggested download filename of
get_s3_download_link is the identity on the basename whenever the site
token is nonempty, and is the basename with exactly the empty site token
removed (the token list with index 1 erased, rejoined) when it is empty. -/
theorem download_name_round_trip (url : PyStr) (p0 site dob g d5 t6 : PyStr)
    (rest : List PyStr)
    (hsplit : pySplit '_' (dlStem url) = p0 :: site :: dob :: g :: d5 :: t6 :: rest) :
    (site ≠ [] → getDownloadOutfile url = some (dlStem url ++ dlExt url)) ∧
      (site = [] →
        getDownloadOutfile url =
          some (pyJoin '_' ((pySplit '_' (dlStem url)).eraseIdx 1) ++ dlExt url)) := by
  constructor
  · intro hsite
    unfold getDownloadOutfile
    rw [hsplit]
    simp only [hsite, if_false, if_neg, List.append_assoc]
    have helems : [p0] ++ ([site] ++ ([dob, g, d5, t6] ++ rest)) =
        p0 :: site :: dob :: g :: d5 :: t6 :: rest := by simp
    rw [helems, ← hsplit, pyJoin_pySplit]
  · intro hsite
    subst hsite
    unfold getDownloadOutfile
    rw [hsplit]
    simp [List.eraseIdx]

/-- C10 witness: a presigned URL whose key basename has a nonempty site
token round-trips to the original basename. -/
theorem download_name_round_trip_witness :
    getDownloadOutfile wUrl =
      some ("IMG_ClinicB_19851230_Male_20240401_090000_KO.jpg".toList) := by
  have h := (download_name_round_trip wUrl ("IMG".toList) ("ClinicB".toList)
    ("19851230".toList) ("Male".toList) ("20240401".toList) ("090000".toList)
    (["KO".toList]) (by decide)).1 (by decide)
  exact h.trans (by decide)

/-- Helper: Ordering.then after lt. -/
theorem lt_then (p : Ordering) : Ordering.lt.then p = Ordering.lt := rfl

/-- Helper: Ordering.then after gt. -/
theorem gt_then (p : Ordering) : Ordering.gt.then p = Ordering.gt := rfl

/-- Helper: Ordering.then after eq. -/
theorem eq_then (p : Ordering) : Ordering.eq.then p = p := rfl

/-- Helper: Ordering.then before eq. -/
theorem then_eqO (o : Ordering) : o.then Ordering.eq = o := by cases o <;> rfl

/-- Helper: cmpNat on a strictly smaller left argument. -/
theorem cmpNat_lt {a b : Nat} (h : a < b) : cmpNat a b = Ordering.lt := by
  simp [cmpNat, h]

/-- Helper: cmpNat on a strictly larger left argument. -/
theorem cmpNat_gt {a b : Nat} (h : b < a) : cmpNat a b = Ordering.gt := by
  have h2 : ¬ a < b := by omega
  simp [cmpNat, h2, h]

/-- Helper: cmpNat on equal arguments. -/
theorem cmpNat_self (a : Nat) : cmpNat a a = Ordering.eq := by simp [cmpNat]

/-- Helper: cmpNat yields lt exactly on strictly smaller arguments. -/
theorem cmpNat_eq_lt_iff (a b : Nat) : cmpNat a b = Ordering.lt ↔ a < b := by
  rcases Nat.lt_trichotomy a b with h | h | h
  · simp [cmpNat_lt h, h]
  · subst h
    rw [cmpNat_self]
    exact iff_of_false (by simp) (by omega)
  · rw [cmpNat_gt h]
    exact iff_of_false (by simp) (by omega)

/-- Helper: cmpNat yields eq exactly on equal arguments. -/
theorem cmpNat_eq_eq_iff (a b : Nat) : cmpNat a b = Ordering.eq ↔ a = b := by
  rcases Nat.lt_trichotomy a b with h | h | h
  · rw [cmpNat_lt h]
    exact iff_of_false (by simp) (by omega)
  · subst h
    simp [cmpNat_self]
  · rw [cmpNat_gt h]
    exact iff_of_false (by simp) (by omega)

/-- Helper: cmpNat avoids gt exactly on weakly smaller arguments. -/
theorem cmpNat_ne_gt_iff (a b : Nat) : cmpNat a b ≠ Ordering.gt ↔ a ≤ b := by
  rcases Nat.lt_trichotomy a b with h | h | h
  · rw [cmpNat_lt h]
    exact iff_of_true (by simp) (by omega)
  · subst h
    rw [cmpNat_self]
    exact iff_of_true (by simp) (by omega)
  · rw [cmpNat_gt h]
    exact iff_of_false (by simp) (by omega)

/-- Helper: pyCmp of a string against itself. -/
theorem pyCmp_refl (u : PyStr) : pyCmp u u = Ordering.eq := by
  induction u with
  | nil => rfl
  | cons c cs ih => simp [pyCmp, cmpChar, cmpNat, ih]

/-- Helper: pyCmp strips a shared head character. -/
theorem pyCmp_cons_same (c : Char) (u v : PyStr) : pyCmp (c :: u) (c :: v) = pyCmp u v := by
  simp [pyCmp, cmpChar, cmpNat]

/-- Helper: pyCmp on singletons is the character comparison. -/
theorem pyCmp_single (a b : Char) : pyCmp [a] [b] = cmpChar a b := by
  cases h : cmpChar a b <;> simp [pyCmp, h]

/-- Helper: comparing equal-length blocks first, then the tails. -/
theorem pyCmp_append (xs : PyStr) :
    ∀ (ys u v : PyStr), xs.length = ys.length →
      pyCmp (xs ++ u) (ys ++ v) = (pyCmp xs ys).then (pyCmp u v) := by
  induction xs with
  | nil =>
    intro ys u v h
    cases ys with
    | nil => simp [pyCmp, eq_then]
    | cons b bs => simp at h
  | cons a as_ ih =>
    intro ys u v h
    cases ys with
    | nil => simp at h
    | cons b bs =>
      have h2 : as_.length = bs.length := by simpa using h
      simp only [List.cons_append, pyCmp]
      cases hc : cmpChar a b with
      | eq => exact ih bs u v h2
      | lt => simp [lt_then]
      | gt => simp [gt_then]

/-- Helper: padNum always produces exactly k characters. -/
theorem padNum_length (k : Nat) : ∀ n, (padNum k n).length = k := by
  induction k with
  | zero => intro n; rfl
  | succ k ih => intro n; simp [padNum, ih]

/-- Helper: digit characters compare like their digit values. -/
theorem digit_cmp : ∀ a, a < 10 → ∀ b, b < 10 →
    cmpChar (Nat.digitChar a) (Nat.digitChar b) = cmpNat a b := by decide

/-- Helper: peeling the last decimal digit preserves the comparison. -/
theorem cmpNat_then_digit (x y : Nat) :
    (cmpNat (x / 10) (y / 10)).then (cmpNat (x % 10) (y % 10)) = cmpNat x y := by
  have hx := Nat.div_add_mod x 10
  have hy := Nat.div_add_mod y 10
  have hmx : x % 10 < 10 := Nat.mod_lt x (by omega)
  have hmy : y % 10 < 10 := Nat.mod_lt y (by omega)
  rcases Nat.lt_trichotomy (x / 10) (y / 10) with h | h | h
  · rw [cmpNat_lt h, lt_then, cmpNat_lt (by omega)]
  · rw [h, cmpNat_self, eq_then]
    rcases Nat.lt_trichotomy (x % 10) (y % 10) with h2 | h2 | h2
    · rw [cmpNat_lt h2, cmpNat_lt (by omega)]
    · have h3 : x = y := by omega
      rw [h2, h3, cmpNat_self, cmpNat_self]
    · rw [cmpNat_gt h2, cmpNat_gt (by omega)]
  · rw [cmpNat_gt h, gt_then, cmpNat_gt (by omega)]

/-- Helper: equal-width zero-padded numerals compare like their values. -/
theorem padNum_cmp : ∀ (k x y : Nat), x < 10 ^ k → y < 10 ^ k →
    pyCmp (padNum k x) (padNum k y) = cmpNat x y := by
  intro k
  induction k with
  | zero =>
    intro x y hx hy
    simp only [pow_zero] at hx hy
    have hx0 : x = 0 := by omega
    have hy0 : y = 0 := by omega
    subst hx0; subst hy0
    rfl
  | succ k ih =>
    intro x y hx hy
    have hx10 : x / 10 < 10 ^ k := by
      rw [pow_succ] at hx
      exact (Nat.div_lt_iff_lt_mul (by omega)).mpr hx
    have hy10 : y / 10 < 10 ^ k := by
      rw [pow_succ] at hy
      exact (Nat.div_lt_iff_lt_mul (by omega)).mpr hy
    simp only [padNum]
    rw [pyCmp_append _ _ _ _ (by rw [padNum_length, padNum_length]),
      ih (x / 10) (y / 10) hx10 hy10, pyCmp_single,
      digit_cmp _ (Nat.mod_lt x (by omega)) _ (Nat.mod_lt y (by omega)),
      cmpNat_then_digit]

/-- Helper: two strftime-formatted instants in the same zone compare, as Python
strings, exactly like the field-by-field comparison of the instants. -/
theorem fmt_cmp (a b : LocalTime) (z : PyStr) (ha : inRange a) (hb : inRange b) :
    pyCmp (fmtLocal a z) (fmtLocal b z) = cmpT a b := by
  obtain ⟨ha1, ha2, ha3, ha4, ha5, ha6⟩ := ha
  obtain ⟨hb1, hb2, hb3, hb4, hb5, hb6⟩ := hb
  unfold fmtLocal cmpT
  rw [pyCmp_append _ _ _ _ (by rw [padNum_length, padNum_length]),
    padNum_cmp 4 _ _ ha1 hb1, pyCmp_cons_same,
    pyCmp_append _ _ _ _ (by rw [padNum_length, padNum_length]),
    padNum_cmp 2 _ _ ha2 hb2, pyCmp_cons_same,
    pyCmp_append _ _ _ _ (by rw [padNum_length, padNum_length]),
    padNum_cmp 2 _ _ ha3 hb3, pyCmp_cons_same,
    pyCmp_append _ _ _ _ (by rw [padNum_length, padNum_length]),
    padNum_cmp 2 _ _ ha4 hb4, pyCmp_cons_same,
    pyCmp_append _ _ _ _ (by rw [padNum_length, padNum_length]),
    padNum_cmp 2 _ _ ha5 hb5, pyCmp_cons_same,
    pyCmp_append _ _ _ _ (by rw [padNum_length, padNum_length]),
    padNum_cmp 2 _ _ ha6 hb6, pyCmp_cons_same,
    pyCmp_refl, then_eqO]

/-- Helper: unfolding Ordering.then under a "not gt" test. -/
theorem then_ne_gt (o p : Ordering) :
    o.then p ≠ Ordering.gt ↔ (o = Ordering.lt ∨ (o = Ordering.eq ∧ p ≠ Ordering.gt)) := by
  cases o <;> simp [Ordering.then]

/-- Helper: the field comparison avoids gt exactly on chronological order. -/
theorem cmpT_ne_gt (a b : LocalTime) : cmpT a b ≠ Ordering.gt ↔ chronoLE a b := by
  unfold cmpT chronoLE
  simp only [then_ne_gt, cmpNat_eq_lt_iff, cmpNat_eq_eq_iff, cmpNat_ne_gt_iff]

/-- Helper: Python <= on strings in terms of pyCmp. -/
theorem pyLe_iff (a b : PyStr) : pyLe a b = true ↔ pyCmp a b ≠ Ordering.gt := by
  unfold pyLe
  cases h : pyCmp a b <;> simp

/-- C8: the date-range filter of image_browser.main keeps a record exactly
when start-of-day(start date) ≤ last_modified ≤ end-of-day(end date), with
all three instants expressed in the selected display zone: the string
comparison of the fixed-width strftime forms coincides with chronological
order for in-range datetime fields sharing one zone abbreviation, and both
bounds are inclusive. -/
theorem date_filter_inclusive_iff (t : LocalTime) (sy sm sd ey em ed : Nat) (tz : PyStr)
    (ht : inRange t) (hs : inRange (startOfDay sy sm sd)) (he : inRange (endOfDay ey em ed)) :
    dateRangeKeep t sy sm sd ey em ed tz = true ↔
      (chronoLE (startOfDay sy sm sd) t ∧ chronoLE t (endOfDay ey em ed)) := by
  unfold dateRangeKeep
  rw [Bool.and_eq_true, pyLe_iff, pyLe_iff, fmt_cmp _ _ _ hs ht, fmt_cmp _ _ _ ht he,
    cmpT_ne_gt, cmpT_ne_gt]

/-- C8 witness: a record stamped 2024-05-01 10:15:30 in the display zone is
kept by the inclusive range 2024-04-01 .. 2024-05-01. -/
theorem date_filter_inclusive_iff_witness :
    dateRangeKeep ⟨2024, 5, 1, 10, 15, 30⟩ 2024 4 1 2024 5 1 ("KST".toList) = true :=
  (date_filter_inclusive_iff ⟨2024, 5, 1, 10, 15, 30⟩ 2024 4 1 2024 5 1 ("KST".toList)
    (by decide) (by decide) (by decide)).mpr (by decide)

end StoolBrowser
